import Mathlib

set_option linter.unusedVariables false

/-!
Shallow embedding of `src/scope.rs` from the rlua repository: the `Scope`
controller, its two-phase teardown (`Drop for Scope`), the destructors pushed
by `Scope::create_callback` and `Scope::create_static_userdata`, and the
dispatch wrappers built inside `Scope::create_nonstatic_userdata`
(`check_ud_type`, `wrap_method`).

Conventions: Lua-side handles are indices into the lists held by `LuaState`;
host-heap addresses (`Rc` cell addresses, boxed values, callback bodies) are
natural-number tags.  The dynamic borrow state of a `RefCell` is a
`BorrowFlag`, with `tryBorrow` / `tryBorrowMut` mirroring
`RefCell::try_borrow` / `RefCell::try_borrow_mut`.
-/

/-- Errors crossing the Lua boundary: the subset of `rlua::Error` produced by
the code in `scope.rs`.  `CallbackDestructed` is the inert-handle condition
raised when a callback or userdata is used after its scope was dropped. -/
inductive Error where
  | CallbackDestructed
  | RecursiveMutCallback
  | UserDataTypeMismatch
  | UserDataBorrowError
  | UserDataBorrowMutError
  deriving DecidableEq, Repr

/-- Lua values as far as `scope.rs` inspects them: `check_ud_type` only
distinguishes userdata (carrying a handle) from everything else.  Userdata and
function handles are indices into the `LuaState` slot lists. -/
inductive LValue where
  | nil
  | boolean (b : Bool)
  | integer (n : Int)
  | str (s : String)
  | userdata (id : Nat)
  | func (id : Nat)
  deriving DecidableEq, Repr

/-- Dynamic borrow state of one `RefCell`: free, `n` outstanding shared
borrows, or one outstanding mutable borrow. -/
inductive BorrowFlag where
  | free
  | reading (n : Nat)
  | writing
  deriving DecidableEq, Repr

/-- `RefCell::try_borrow`: succeeds unless a mutable borrow is outstanding. -/
def tryBorrow : BorrowFlag → Option BorrowFlag
  | BorrowFlag.free => some (BorrowFlag.reading 1)
  | BorrowFlag.reading n => some (BorrowFlag.reading (n + 1))
  | BorrowFlag.writing => none

/-- `RefCell::try_borrow_mut`: succeeds only if no borrow is outstanding. -/
def tryBorrowMut : BorrowFlag → Option BorrowFlag
  | BorrowFlag.free => some BorrowFlag.writing
  | BorrowFlag.reading _ => none
  | BorrowFlag.writing => none

/-- `check_ud_type` (src/scope.rs lines 170-185): the popped first argument
passes the identity check exactly when it is a userdata whose uservalue slot
holds the lightuserdata pointer equal to the captured cell address
`check_data`.  `uv` maps a userdata handle to the address stored in its
uservalue slot (`none` models an unset / non-lightuserdata uservalue, whose
`lua_touserdata` is NULL and never equals a live `Rc` address). -/
def check_ud_type (uv : Nat → Option Nat) (check_data : Nat) : Option LValue → Bool
  | some (LValue.userdata u) => decide (uv u = some check_data)
  | _ => false

/-- The four method variants of `enum NonStaticMethod` (src/scope.rs lines
329-334).  The Lua context argument is dropped; the receiver value of type `T`
is passed explicitly to the `Method`/`MethodMut` bodies. -/
inductive NonStaticMethod (T : Type) where
  | Method (f : T → List LValue → Except Error (List LValue))
  | MethodMut (f : T → List LValue → Except Error (List LValue))
  | Function (f : List LValue → Except Error (List LValue))
  | FunctionMut (f : List LValue → Except Error (List LValue))

/-- One invocation of a closure produced by `wrap_method` (src/scope.rs lines
187-230).  `uv` is the current uservalue lookup of the Lua state, `check_data`
the cell address captured at wrap time, `dataFlag` the outstanding-borrow
state of the shared data cell (`Rc<RefCell<T>>`), `methodFlag` the
outstanding-borrow state of the `RefCell` wrapped around `MethodMut` /
`FunctionMut` bodies, and `dataVal` the current contents of the data cell.
`MultiValue::pop_front` is `args.head?` / `args.tail`. -/
def invokeNonStatic {T : Type} (uv : Nat → Option Nat) (check_data : Nat)
    (dataFlag methodFlag : BorrowFlag) (dataVal : T) :
    NonStaticMethod T → List LValue → Except Error (List LValue)
  | NonStaticMethod.Method f, args =>
      if check_ud_type uv check_data args.head? then
        match tryBorrow dataFlag with
        | none => Except.error Error.UserDataBorrowError
        | some _ => f dataVal args.tail
      else Except.error Error.UserDataTypeMismatch
  | NonStaticMethod.MethodMut f, args =>
      if check_ud_type uv check_data args.head? then
        match tryBorrowMut methodFlag with
        | none => Except.error Error.RecursiveMutCallback
        | some _ =>
            match tryBorrowMut dataFlag with
            | none => Except.error Error.UserDataBorrowMutError
            | some _ => f dataVal args.tail
      else Except.error Error.UserDataTypeMismatch
  | NonStaticMethod.Function f, args => f args
  | NonStaticMethod.FunctionMut f, args =>
      match tryBorrowMut methodFlag with
      | none => Except.error Error.RecursiveMutCallback
      | some _ => f args

/-- One invocation of the closure built by `Scope::create_function_mut`
(src/scope.rs lines 87-92): the user closure sits in a `RefCell` whose borrow
state is `flag` (it is `writing` exactly while an invocation of this same
closure is executing).  Returns the call result together with the borrow state
as seen by the caller afterwards: a successful call releases its borrow on
return, and a failed `try_borrow_mut` never changes the flag, so the in-flight
outer borrow is left intact. -/
def create_function_mut_call {A R : Type} (func : A → Except Error R)
    (flag : BorrowFlag) (args : A) : Except Error R × BorrowFlag :=
  match tryBorrowMut flag with
  | none => (Except.error Error.RecursiveMutCallback, flag)
  | some _ => (func args, flag)

/-- Modify a list in place at one index; out-of-range indices leave the list
unchanged (mirrors mutating one slot of the Lua registry). -/
def modifyAt {α : Type} (f : α → α) : List α → Nat → List α
  | [], _ => []
  | x :: xs, 0 => f x :: xs
  | x :: xs, n + 1 => x :: modifyAt f xs n

/-- A Lua function object: its first upvalue boxes the Rust `Callback`
(identified by a tag), or is `none` once the scope destructor has run
`take_userdata` on it and set the upvalue to nil (src/scope.rs lines
300-304). -/
structure FnSlot where
  callback : Option Nat
  deriving DecidableEq, Repr

/-- A Lua userdata object: `storage` is the boxed host value (taken out and
nulled by `take_userdata` during teardown), `uservalue` the lightuserdata
pointer installed in the auxiliary uservalue slot, and `table` the installed
behavior table, mapping an operation key to the wrapping function handle. -/
structure UdSlot where
  storage : Option Nat
  uservalue : Option Nat
  table : List (Nat × Nat)
  deriving DecidableEq, Repr

/-- The foreign runtime's storage reachable from handles: function objects and
userdata objects, each addressed by its index. -/
structure LuaState where
  functions : List FnSlot
  userdatas : List UdSlot
  deriving DecidableEq, Repr

/-- Uservalue lookup used by the identity check: the address stored in the
auxiliary uservalue slot of userdata handle `udId`. -/
def LuaState.uservalueOf (st : LuaState) (udId : Nat) : Option Nat :=
  (st.userdatas[udId]?).bind UdSlot.uservalue

/-- Behavior table installed on userdata handle `udId` (empty if the handle
does not exist). -/
def tableOf (st : LuaState) (udId : Nat) : List (Nat × Nat) :=
  ((st.userdatas[udId]?).map UdSlot.table).getD []

/-- The deferred actions a `Scope` can push onto `self.destructors`:
one per `Scope::create_callback` (src/scope.rs lines 294-308), nulling a
function handle's upvalue, and one per `Scope::create_static_userdata`
(lines 113-119), taking the boxed value out of a userdata handle. -/
inductive Destructor where
  | callback (fnId : Nat)
  | staticUd (udId : Nat)
  deriving DecidableEq, Repr

/-- The type-erased `Box<Any>` a deferred action yields: the extracted
`Box<Callback>` or the extracted boxed userdata value. -/
inductive BoxAny where
  | callback (cb : Nat)
  | userdata (v : Nat)
  deriving DecidableEq, Repr

/-- Run one deferred action: null the target handle's backing storage and
yield the owned boxed value (src/scope.rs lines 113-119 and 294-308). -/
def runDestructor (st : LuaState) : Destructor → LuaState × BoxAny
  | Destructor.callback fnId =>
      let cb := ((st.functions[fnId]?).bind FnSlot.callback).getD 0
      ({ st with
          functions := modifyAt (fun s => { s with callback := none }) st.functions fnId },
        BoxAny.callback cb)
  | Destructor.staticUd udId =>
      let v := ((st.userdatas[udId]?).bind UdSlot.storage).getD 0
      ({ st with
          userdatas := modifyAt (fun s => { s with storage := none }) st.userdatas udId },
        BoxAny.userdata v)

/-- Observable teardown events: a handle invalidation (running one deferred
action) or the drop of one collected owned value. -/
inductive TEvent where
  | invalidated (d : Destructor)
  | dropped (b : BoxAny)
  deriving DecidableEq, Repr

/-- Phase 1 of `Drop for Scope` (src/scope.rs lines 319-324):
`self.destructors.get_mut().drain(..).map(|d| d()).collect::<Vec<_>>()` —
run the deferred actions front to back, collecting the yielded boxes in that
order.  Returns the final state, the collected boxes, and the invalidation
events in execution order. -/
def phase1 : LuaState → List Destructor → LuaState × List BoxAny × List TEvent
  | st, [] => (st, [], [])
  | st, d :: rest =>
      let p := runDestructor st d
      let q := phase1 p.1 rest
      (q.1, p.2 :: q.2.1, TEvent.invalidated d :: q.2.2)

/-- Full `Drop for Scope` (src/scope.rs lines 313-327): phase 1 as above,
then `drop(to_drop)`, which drops the collected `Vec<Box<Any>>` element by
element front to back.  Returns the final Lua state and the complete event
trace. -/
def scopeDrop (st : LuaState) (ds : List Destructor) : LuaState × List TEvent :=
  let p := phase1 st ds
  (p.1, p.2.2 ++ p.2.1.map TEvent.dropped)

/-- State of one live `Scope` (src/scope.rs lines 28-33): the Lua state it is
attached to, the `destructors` registry in push order, and a host allocation
counter whose value is the address handed out to the next `Rc` cell
(addresses of live cells are therefore pairwise distinct). -/
structure ScopeState where
  lua : LuaState
  destructors : List Destructor
  cells : Nat
  deriving DecidableEq, Repr

/-- A fresh scope over an empty runtime. -/
def emptyScope : ScopeState := ⟨⟨[], []⟩, [], 0⟩

/-- `Scope::create_callback` (src/scope.rs lines 285-310): register callback
body `cb` with the runtime under a fresh function handle (the external
`create_unbounded_callback` primitive of spec section 6, modelled as appending
a slot) and push the matching deferred action.  Returns the new scope state
and the function handle. -/
def scopeCreateCallback (s : ScopeState) (cb : Nat) : ScopeState × Nat :=
  let fnId := s.lua.functions.length
  (⟨⟨s.lua.functions ++ [⟨some cb⟩], s.lua.userdatas⟩,
    s.destructors ++ [Destructor.callback fnId], s.cells⟩, fnId)

/-- `Scope::create_static_userdata` (src/scope.rs lines 103-122): move the
boxed value `v` into a fresh userdata handle and push a deferred action that
takes it back out.  Returns the new scope state and the userdata handle. -/
def create_static_userdata (s : ScopeState) (v : Nat) : ScopeState × Nat :=
  let udId := s.lua.userdatas.length
  (⟨⟨s.lua.functions, s.lua.userdatas ++ [⟨some v, none, []⟩]⟩,
    s.destructors ++ [Destructor.staticUd udId], s.cells⟩, udId)

/-- Tag distinguishing the four `NonStaticMethod` variants at the scope level,
where only registration structure matters, not method bodies. -/
inductive MKind where
  | method
  | methodMut
  | function
  | functionMut
  deriving DecidableEq, Repr

/-- The `push_userdata(lua.state, ())` + `lua_setuservalue` steps of
`Scope::create_nonstatic_userdata` (src/scope.rs lines 241-243): allocate the
unit userdata and store the identity token (the cell address) in its
uservalue slot.  No deferred action is pushed for the userdata itself. -/
def pushUnitUserdata (s : ScopeState) (token : Nat) : ScopeState × Nat :=
  let udId := s.lua.userdatas.length
  (⟨⟨s.lua.functions, s.lua.userdatas ++ [⟨some 0, some token, []⟩]⟩,
    s.destructors, s.cells⟩, udId)

/-- The wrapping loops of `Scope::create_nonstatic_userdata` (src/scope.rs
lines 249-256 and 264-270): each listed method is wrapped by `wrap_method`,
whose every branch registers the wrapper through `scope.create_callback`.
Returns the updated scope state and the table entries (key, wrapper function
handle) in list order. -/
def wrapMethods (s : ScopeState) : List (Nat × MKind) → ScopeState × List (Nat × Nat)
  | [] => (s, [])
  | (k, _) :: rest =>
      let p := scopeCreateCallback s 0
      let q := wrapMethods p.1 rest
      (q.1, (k, p.2) :: q.2)

/-- The `init_userdata_metatable` / `lua_setmetatable` steps (src/scope.rs
lines 258-276): install the built table as the behavior of handle `udId`. -/
def installTable (s : ScopeState) (udId : Nat) (tbl : List (Nat × Nat)) : ScopeState :=
  ⟨⟨s.lua.functions, modifyAt (fun u => { u with table := tbl }) s.lua.userdatas udId⟩,
    s.destructors, s.cells⟩

/-- `Scope::create_nonstatic_userdata` (src/scope.rs lines 147-280): wrap the
value in a fresh `Rc<RefCell<_>>` cell (modelled by the allocation counter;
the identity token is the fresh cell's address), allocate the unit userdata
with the token in its uservalue slot, wrap every meta-method and then every
method via `wrap_method`, and install the resulting table.  Returns the new
scope state and the userdata handle. -/
def create_nonstatic_userdata (s : ScopeState) (meta meths : List (Nat × MKind)) :
    ScopeState × Nat :=
  let token := s.cells
  let s1 : ScopeState := ⟨s.lua, s.destructors, s.cells + 1⟩
  let p := pushUnitUserdata s1 token
  let q := wrapMethods p.1 meta
  let r := wrapMethods q.1 meths
  (installTable r.1 p.2 (q.2 ++ r.2), p.2)

/-- Modelled from the spec: the foreign-side call dispatch for a function
handle lives outside src/ (in lua.rs); per spec sections 7 and 8, a call
through a handle whose backing storage has been nulled "fails with a defined
inert handle condition" and otherwise runs the stored host closure, whose
behavior is given by the environment `env`. -/
def callFunction (env : Nat → List LValue → Except Error (List LValue))
    (st : LuaState) (fnId : Nat) (args : List LValue) : Except Error (List LValue) :=
  match (st.functions[fnId]?).bind FnSlot.callback with
  | none => Except.error Error.CallbackDestructed
  | some cb => env cb args

/-- Modelled from the spec: foreign-side access to the boxed value behind a
userdata handle lives outside src/ (in lua.rs / userdata.rs); per spec
sections 7 and 8, lookup through a handle whose storage was already extracted
returns the inert-handle error rather than a value. -/
def accessUserdata (st : LuaState) (udId : Nat) : Except Error Nat :=
  match (st.userdatas[udId]?).bind UdSlot.storage with
  | none => Except.error Error.CallbackDestructed
  | some v => Except.ok v

/-- One registration request against a scope: the three registration entry
points of `Scope` (both `create_function` variants reach the runtime through
`Scope::create_callback`, so they share `fnReg`). -/
inductive Reg where
  | fnReg (cb : Nat)
  | staticUdReg (v : Nat)
  | nonstaticUdReg (meta meths : List (Nat × MKind))
  deriving Repr

/-- Apply one registration to the scope state. -/
def runReg (s : ScopeState) : Reg → ScopeState
  | Reg.fnReg cb => (scopeCreateCallback s cb).1
  | Reg.staticUdReg v => (create_static_userdata s v).1
  | Reg.nonstaticUdReg meta meths => (create_nonstatic_userdata s meta meths).1

/-- Apply a list of registrations in order. -/
def runRegs (s : ScopeState) : List Reg → ScopeState
  | [] => s
  | r :: rest => runRegs (runReg s r) rest

/-- The Lua state left behind once the scope has been dropped. -/
def scopeEnd (s : ScopeState) : LuaState := (scopeDrop s.lua s.destructors).1

/-- A function handle is inert: it does not exist, or its upvalue no longer
holds a callback. -/
def fnInert (st : LuaState) (i : Nat) : Prop :=
  (st.functions[i]?).bind FnSlot.callback = none

/-- A userdata handle is inert: it does not exist, or its backing storage has
been extracted. -/
def udInert (st : LuaState) (j : Nat) : Prop :=
  (st.userdatas[j]?).bind UdSlot.storage = none

/-- Registry coverage: every function handle the runtime currently holds has a
matching deferred action in the scope's registry.  This is the adapter
contract of spec section 4.2: a wrapped closure is never registered without
its deferred action. -/
def fnCovered (s : ScopeState) : Prop :=
  ∀ i, i < s.lua.functions.length → Destructor.callback i ∈ s.destructors

example :
    scopeEnd (runRegs emptyScope [Reg.fnReg 3, Reg.staticUdReg 9])
      = ⟨[⟨none⟩], [⟨none, none, []⟩]⟩ := rfl
example :
    (create_nonstatic_userdata emptyScope [(10, MKind.method)] [(11, MKind.methodMut)]).1.destructors
      = [Destructor.callback 0, Destructor.callback 1] := rfl

theorem modifyAt_length {α : Type} (f : α → α) (l : List α) (n : Nat) :
    (modifyAt f l n).length = l.length := by
  induction l generalizing n with
  | nil => rfl
  | cons x xs ih =>
      cases n with
      | zero => rfl
      | succ m => simp [modifyAt, ih]

theorem modifyAt_get_self {α : Type} (f : α → α) (l : List α) (n : Nat) :
    (modifyAt f l n)[n]? = (l[n]?).map f := by
  induction l generalizing n with
  | nil => rfl
  | cons x xs ih =>
      cases n with
      | zero => simp [modifyAt]
      | succ m => simpa [modifyAt] using ih m

theorem modifyAt_get_ne {α : Type} (f : α → α) (l : List α) (n m : Nat) (h : m ≠ n) :
    (modifyAt f l n)[m]? = l[m]? := by
  induction l generalizing n m with
  | nil => rfl
  | cons x xs ih =>
      cases n with
      | zero =>
          cases m with
          | zero => exact absurd rfl h
          | succ k => simp [modifyAt]
      | succ n2 =>
          cases m with
          | zero => simp [modifyAt]
          | succ k =>
              have hk : k ≠ n2 := fun he => h (by rw [he])
              simpa [modifyAt] using ih n2 k hk

theorem phase1_events (ds : List Destructor) : ∀ st : LuaState,
    (phase1 st ds).2.2 = ds.map TEvent.invalidated := by
  induction ds with
  | nil => intro st; rfl
  | cons d rest ih => intro st; simp [phase1, ih]

theorem phase1_boxes_length (ds : List Destructor) : ∀ st : LuaState,
    (phase1 st ds).2.1.length = ds.length := by
  induction ds with
  | nil => intro st; rfl
  | cons d rest ih => intro st; simp [phase1, ih]

/-- C1: during scope teardown with N registered deferred actions, the event
trace of `Drop for Scope` is exactly the N invalidations in registration
order, followed by the drops of the N collected owned values in that same
order — every invalidation completes strictly before any owned value is
dropped, independently of what the drops themselves do. -/
theorem scope_teardown_two_phase (st : LuaState) (ds : List Destructor) :
    (scopeDrop st ds).2
        = ds.map TEvent.invalidated ++ ((phase1 st ds).2.1).map TEvent.dropped
      ∧ ((phase1 st ds).2.1).length = ds.length := by
  refine ⟨?_, phase1_boxes_length ds st⟩
  simp [scopeDrop, phase1_events]

theorem runDestructor_preserves_fnInert (st : LuaState) (d : Destructor) (i : Nat)
    (h : fnInert st i) : fnInert (runDestructor st d).1 i := by
  cases d with
  | callback fnId =>
      by_cases he : i = fnId
      · subst he
        simp only [fnInert, runDestructor, modifyAt_get_self]
        cases st.functions[i]? <;> simp
      · simpa [fnInert, runDestructor, modifyAt_get_ne _ _ _ _ he] using h
  | staticUd udId => simpa [fnInert, runDestructor] using h

theorem runDestructor_preserves_udInert (st : LuaState) (d : Destructor) (j : Nat)
    (h : udInert st j) : udInert (runDestructor st d).1 j := by
  cases d with
  | callback fnId => simpa [udInert, runDestructor] using h
  | staticUd udId =>
      by_cases he : j = udId
      · subst he
        simp only [udInert, runDestructor, modifyAt_get_self]
        cases st.userdatas[j]? <;> simp
      · simpa [udInert, runDestructor, modifyAt_get_ne _ _ _ _ he] using h

theorem runDestructor_callback_inert (st : LuaState) (i : Nat) :
    fnInert (runDestructor st (Destructor.callback i)).1 i := by
  simp only [fnInert, runDestructor, modifyAt_get_self]
  cases st.functions[i]? <;> simp

theorem runDestructor_staticUd_inert (st : LuaState) (j : Nat) :
    udInert (runDestructor st (Destructor.staticUd j)).1 j := by
  simp only [udInert, runDestructor, modifyAt_get_self]
  cases st.userdatas[j]? <;> simp

theorem phase1_preserves_fnInert (ds : List Destructor) : ∀ st : LuaState, ∀ i : Nat,
    fnInert st i → fnInert (phase1 st ds).1 i := by
  induction ds with
  | nil => intro st i h; exact h
  | cons d rest ih =>
      intro st i h
      exact ih _ i (runDestructor_preserves_fnInert st d i h)

theorem phase1_preserves_udInert (ds : List Destructor) : ∀ st : LuaState, ∀ j : Nat,
    udInert st j → udInert (phase1 st ds).1 j := by
  induction ds with
  | nil => intro st j h; exact h
  | cons d rest ih =>
      intro st j h
      exact ih _ j (runDestructor_preserves_udInert st d j h)

/-- Running the registry nulls every function handle some deferred action
targets: nulling happens when the action runs and is never undone later. -/
theorem phase1_mem_fnInert (ds : List Destructor) : ∀ st : LuaState, ∀ i : Nat,
    Destructor.callback i ∈ ds → fnInert (phase1 st ds).1 i := by
  induction ds with
  | nil => intro st i h; cases h
  | cons d rest ih =>
      intro st i h
      rcases List.mem_cons.mp h with he | hm
      · subst he
        exact phase1_preserves_fnInert rest _ i (runDestructor_callback_inert st i)
      · exact ih _ i hm

theorem phase1_mem_udInert (ds : List Destructor) : ∀ st : LuaState, ∀ j : Nat,
    Destructor.staticUd j ∈ ds → udInert (phase1 st ds).1 j := by
  induction ds with
  | nil => intro st j h; cases h
  | cons d rest ih =>
      intro st j h
      rcases List.mem_cons.mp h with he | hm
      · subst he
        exact phase1_preserves_udInert rest _ j (runDestructor_staticUd_inert st j)
      · exact ih _ j hm

theorem callFunction_inert (env : Nat → List LValue → Except Error (List LValue))
    (st : LuaState) (i : Nat) (args : List LValue) (h : fnInert st i) :
    callFunction env st i args = Except.error Error.CallbackDestructed := by
  simp only [callFunction, fnInert] at h ⊢
  rw [h]

theorem accessUserdata_inert (st : LuaState) (j : Nat) (h : udInert st j) :
    accessUserdata st j = Except.error Error.CallbackDestructed := by
  simp only [accessUserdata, udInert] at h ⊢
  rw [h]

theorem fnCovered_createCallback (s : ScopeState) (cb : Nat) (h : fnCovered s) :
    fnCovered (scopeCreateCallback s cb).1 := by
  intro i hi
  simp only [scopeCreateCallback, List.length_append, List.length_cons,
    List.length_nil] at hi
  simp only [scopeCreateCallback, List.mem_append, List.mem_cons]
  rcases Nat.lt_succ_iff_lt_or_eq.mp hi with hlt | he
  · exact Or.inl (h i hlt)
  · exact Or.inr (Or.inl (by rw [he]))

theorem fnCovered_wrapMethods (ms : List (Nat × MKind)) : ∀ s : ScopeState,
    fnCovered s → fnCovered (wrapMethods s ms).1 := by
  induction ms with
  | nil => intro s h; exact h
  | cons km rest ih =>
      intro s h
      exact ih _ (fnCovered_createCallback s 0 h)

theorem fnCovered_pushUnitUserdata (s : ScopeState) (token : Nat) (h : fnCovered s) :
    fnCovered (pushUnitUserdata s token).1 := h

theorem fnCovered_installTable (s : ScopeState) (udId : Nat) (tbl : List (Nat × Nat))
    (h : fnCovered s) : fnCovered (installTable s udId tbl) := h

theorem fnCovered_runReg (s : ScopeState) (r : Reg) (h : fnCovered s) :
    fnCovered (runReg s r) := by
  cases r with
  | fnReg cb => exact fnCovered_createCallback s cb h
  | staticUdReg v =>
      intro i hi
      simp only [runReg, create_static_userdata] at hi ⊢
      exact List.mem_append_left _ (h i hi)
  | nonstaticUdReg meta meths =>
      exact fnCovered_installTable _ _ _
        (fnCovered_wrapMethods meths _ (fnCovered_wrapMethods meta _
          (fnCovered_pushUnitUserdata _ _ h)))

theorem fnCovered_runRegs (regs : List Reg) : ∀ s : ScopeState,
    fnCovered s → fnCovered (runRegs s regs) := by
  induction regs with
  | nil => intro s h; exact h
  | cons r rest ih =>
      intro s h
      exact ih _ (fnCovered_runReg s r h)

theorem fnCovered_emptyScope : fnCovered emptyScope := by
  intro i hi
  exact absurd hi (Nat.not_lt_zero i)

/-- C2: after the scope created by any sequence of registrations is dropped,
every foreign-side call through a function handle — including the wrappers a
scoped data object dispatches through — fails with the inert-handle error
`CallbackDestructed` for every callback environment, so the host closure is
never executed; and lookup through any userdata handle registered by
`create_static_userdata` fails the same way, because the backing storage of
each such handle was already nulled during phase 1 of teardown. -/
theorem post_teardown_inert (regs : List Reg) (i : Nat)
    (env : Nat → List LValue → Except Error (List LValue)) (args : List LValue)
    (j : Nat) (hj : Destructor.staticUd j ∈ (runRegs emptyScope regs).destructors) :
    callFunction env (scopeEnd (runRegs emptyScope regs)) i args
        = Except.error Error.CallbackDestructed
      ∧ accessUserdata (scopeEnd (runRegs emptyScope regs)) j
        = Except.error Error.CallbackDestructed := by
  constructor
  · apply callFunction_inert
    by_cases hi : i < (runRegs emptyScope regs).lua.functions.length
    · have hmem := fnCovered_runRegs regs emptyScope fnCovered_emptyScope i hi
      exact phase1_mem_fnInert _ _ i hmem
    · apply phase1_preserves_fnInert
      simp only [fnInert, List.getElem?_eq_none (Nat.le_of_not_lt hi), Option.none_bind]
  · exact accessUserdata_inert _ j (phase1_mem_udInert _ _ j hj)

/-- Witness for C2 at a concrete registration sequence. -/
theorem post_teardown_inert_witness :
    Destructor.staticUd 0 ∈ (runRegs emptyScope [Reg.staticUdReg 7]).destructors
      ∧ (callFunction (fun _ _ => Except.ok [])
            (scopeEnd (runRegs emptyScope [Reg.staticUdReg 7])) 0 []
          = Except.error Error.CallbackDestructed
        ∧ accessUserdata (scopeEnd (runRegs emptyScope [Reg.staticUdReg 7])) 0
          = Except.error Error.CallbackDestructed) :=
  ⟨by decide,
    post_teardown_inert [Reg.staticUdReg 7] 0 (fun _ _ => Except.ok []) [] 0 (by decide)⟩

theorem wrapMethods_userdatas (ms : List (Nat × MKind)) : ∀ s : ScopeState,
    (wrapMethods s ms).1.lua.userdatas = s.lua.userdatas := by
  induction ms with
  | nil => intro s; rfl
  | cons km rest ih =>
      intro s
      exact ih (scopeCreateCallback s 0).1

theorem wrapMethods_cells (ms : List (Nat × MKind)) : ∀ s : ScopeState,
    (wrapMethods s ms).1.cells = s.cells := by
  induction ms with
  | nil => intro s; rfl
  | cons km rest ih =>
      intro s
      exact ih (scopeCreateCallback s 0).1

theorem wrapMethods_functions_length (ms : List (Nat × MKind)) : ∀ s : ScopeState,
    (wrapMethods s ms).1.lua.functions.length = s.lua.functions.length + ms.length := by
  induction ms with
  | nil => intro s; rfl
  | cons km rest ih =>
      intro s
      cases km with
      | mk k m =>
          simp only [wrapMethods]
          rw [ih]
          simp only [scopeCreateCallback, List.length_append, List.length_cons,
            List.length_nil]
          omega

theorem wrapMethods_keys (ms : List (Nat × MKind)) : ∀ s : ScopeState,
    ((wrapMethods s ms).2).map Prod.fst = ms.map Prod.fst := by
  induction ms with
  | nil => intro s; rfl
  | cons km rest ih =>
      intro s
      cases km with
      | mk k m => simp [wrapMethods, ih]

theorem wrapMethods_range (ms : List (Nat × MKind)) : ∀ s : ScopeState,
    ∀ kf ∈ (wrapMethods s ms).2,
      s.lua.functions.length ≤ kf.2
        ∧ kf.2 < (wrapMethods s ms).1.lua.functions.length := by
  induction ms with
  | nil => intro s kf h; cases h
  | cons km rest ih =>
      intro s kf h
      cases km with
      | mk k m =>
          have hlen : (wrapMethods (scopeCreateCallback s 0).1 rest).1.lua.functions.length
              = s.lua.functions.length + 1 + rest.length := by
            rw [wrapMethods_functions_length]
            simp only [scopeCreateCallback, List.length_append, List.length_cons,
              List.length_nil]
          simp only [wrapMethods, List.mem_cons] at h
          rcases h with he | hm
          · subst he
            refine ⟨Nat.le_refl _, ?_⟩
            simp only [wrapMethods]
            rw [hlen]
            simp only [scopeCreateCallback]
            omega
          · have h3 := ih (scopeCreateCallback s 0).1 kf hm
            refine ⟨?_, ?_⟩
            · have h4 : s.lua.functions.length
                  ≤ (scopeCreateCallback s 0).1.lua.functions.length := by
                simp only [scopeCreateCallback, List.length_append, List.length_cons,
                  List.length_nil]
                omega
              exact Nat.le_trans h4 h3.1
            · simpa only [wrapMethods] using h3.2

theorem wrapMethods_destructors (ms : List (Nat × MKind)) : ∀ s : ScopeState,
    (wrapMethods s ms).1.destructors
      = s.destructors ++ ((wrapMethods s ms).2).map (fun kf => Destructor.callback kf.2) := by
  induction ms with
  | nil => intro s; simp [wrapMethods]
  | cons km rest ih =>
      intro s
      cases km with
      | mk k m =>
          simp only [wrapMethods]
          rw [ih]
          simp only [scopeCreateCallback, List.map_cons]
          simp [List.append_assoc]

theorem create_nonstatic_unfold (s : ScopeState) (meta meths : List (Nat × MKind)) :
    create_nonstatic_userdata s meta meths
      = (installTable
            (wrapMethods
              (wrapMethods
                (pushUnitUserdata ⟨s.lua, s.destructors, s.cells + 1⟩ s.cells).1 meta).1
              meths).1
            s.lua.userdatas.length
            ((wrapMethods
                (pushUnitUserdata ⟨s.lua, s.destructors, s.cells + 1⟩ s.cells).1 meta).2
              ++ (wrapMethods
                    (wrapMethods
                      (pushUnitUserdata ⟨s.lua, s.destructors, s.cells + 1⟩ s.cells).1
                      meta).1
                    meths).2),
          s.lua.userdatas.length) := rfl

theorem create_nonstatic_cells (s : ScopeState) (meta meths : List (Nat × MKind)) :
    (create_nonstatic_userdata s meta meths).1.cells = s.cells + 1 := by
  rw [create_nonstatic_unfold]
  simp only [installTable]
  rw [wrapMethods_cells, wrapMethods_cells]
  rfl

theorem create_nonstatic_slot (s : ScopeState) (meta meths : List (Nat × MKind)) :
    (create_nonstatic_userdata s meta meths).1.lua.userdatas[(create_nonstatic_userdata
        s meta meths).2]?
      = some ⟨some 0, some s.cells,
          (wrapMethods
              (pushUnitUserdata ⟨s.lua, s.destructors, s.cells + 1⟩ s.cells).1 meta).2
            ++ (wrapMethods
                  (wrapMethods
                    (pushUnitUserdata ⟨s.lua, s.destructors, s.cells + 1⟩ s.cells).1
                    meta).1
                  meths).2⟩ := by
  rw [create_nonstatic_unfold]
  simp only [installTable]
  rw [modifyAt_get_self, wrapMethods_userdatas, wrapMethods_userdatas]
  show ((s.lua.userdatas ++ [⟨some 0, some s.cells, []⟩])[s.lua.userdatas.length]?).map _ = _
  rw [List.getElem?_concat_length]
  rfl

theorem create_nonstatic_uservalue (s : ScopeState) (meta meths : List (Nat × MKind)) :
    (create_nonstatic_userdata s meta meths).1.lua.uservalueOf
        (create_nonstatic_userdata s meta meths).2 = some s.cells := by
  simp only [LuaState.uservalueOf]
  rw [create_nonstatic_slot]
  rfl

theorem create_nonstatic_table (s : ScopeState) (meta meths : List (Nat × MKind)) :
    tableOf (create_nonstatic_userdata s meta meths).1.lua
        (create_nonstatic_userdata s meta meths).2
      = (wrapMethods
            (pushUnitUserdata ⟨s.lua, s.destructors, s.cells + 1⟩ s.cells).1 meta).2
          ++ (wrapMethods
                (wrapMethods
                  (pushUnitUserdata ⟨s.lua, s.destructors, s.cells + 1⟩ s.cells).1
                  meta).1
                meths).2 := by
  simp only [tableOf]
  rw [create_nonstatic_slot]
  rfl

theorem create_nonstatic_functions_length (s : ScopeState) (meta meths : List (Nat × MKind)) :
    (create_nonstatic_userdata s meta meths).1.lua.functions.length
      = s.lua.functions.length + meta.length + meths.length := by
  rw [create_nonstatic_unfold]
  simp only [installTable]
  rw [wrapMethods_functions_length, wrapMethods_functions_length]
  rfl

/-- C8 counterexample: a `create_nonstatic_userdata` call for a userdata type
that registers no methods and no meta-methods pushes no Deferred Action at
all — the scope's Destructor Registry is exactly as empty after the call as
before it, refuting the claim that every call registers a Deferred Action. -/
theorem create_nonstatic_no_methods_no_action :
    (create_nonstatic_userdata emptyScope [] []).1.destructors = [] := rfl

/-- C8 (amended): every `create_nonstatic_userdata` call wraps the value in a
freshly allocated Shared Mutable Cell (the allocation counter advances by
one), stores that cell's address as the Identity Token in the handle's
uservalue slot, installs a freshly built per-registration method table — one
entry per listed method, in order, each bound to a function handle newly
allocated during this call — and registers one Deferred Action per wrapped
method (hence at least one whenever the data type exposes any method, and
none when it exposes no methods). -/
theorem create_nonstatic_registration (s : ScopeState) (meta meths : List (Nat × MKind)) :
    (create_nonstatic_userdata s meta meths).1.cells = s.cells + 1
      ∧ (create_nonstatic_userdata s meta meths).1.lua.uservalueOf
          (create_nonstatic_userdata s meta meths).2 = some s.cells
      ∧ (tableOf (create_nonstatic_userdata s meta meths).1.lua
            (create_nonstatic_userdata s meta meths).2).map Prod.fst
          = (meta ++ meths).map Prod.fst
      ∧ (∀ kf ∈ tableOf (create_nonstatic_userdata s meta meths).1.lua
            (create_nonstatic_userdata s meta meths).2,
          s.lua.functions.length ≤ kf.2
            ∧ kf.2 < (create_nonstatic_userdata s meta meths).1.lua.functions.length)
      ∧ (create_nonstatic_userdata s meta meths).1.destructors
          = s.destructors
            ++ (tableOf (create_nonstatic_userdata s meta meths).1.lua
                  (create_nonstatic_userdata s meta meths).2).map
                (fun kf => Destructor.callback kf.2) := by
  refine ⟨create_nonstatic_cells s meta meths, create_nonstatic_uservalue s meta meths,
    ?_, ?_, ?_⟩
  · rw [create_nonstatic_table]
    simp [List.map_append, wrapMethods_keys]
  · intro kf hkf
    rw [create_nonstatic_table] at hkf
    rw [create_nonstatic_functions_length]
    rcases List.mem_append.mp hkf with hq | hr
    · have h3 := wrapMethods_range meta _ kf hq
      have h4 := wrapMethods_functions_length meta
        (pushUnitUserdata ⟨s.lua, s.destructors, s.cells + 1⟩ s.cells).1
      constructor
      · exact h3.1
      · rw [h4] at h3
        have h5 : (pushUnitUserdata ⟨s.lua, s.destructors, s.cells + 1⟩
            s.cells).1.lua.functions.length = s.lua.functions.length := rfl
        rw [h5] at h3
        omega
    · have h3 := wrapMethods_range meths _ kf hr
      have h4 := wrapMethods_functions_length meta
        (pushUnitUserdata ⟨s.lua, s.destructors, s.cells + 1⟩ s.cells).1
      have h6 := wrapMethods_functions_length meths
        (wrapMethods (pushUnitUserdata ⟨s.lua, s.destructors, s.cells + 1⟩ s.cells).1 meta).1
      have h5 : (pushUnitUserdata ⟨s.lua, s.destructors, s.cells + 1⟩
          s.cells).1.lua.functions.length = s.lua.functions.length := rfl
      rw [h5] at h4
      rw [h4] at h3 h6
      rw [h6] at h3
      omega
  · rw [create_nonstatic_table, create_nonstatic_unfold]
    simp only [installTable]
    rw [wrapMethods_destructors meths, wrapMethods_destructors meta]
    have h5 : (pushUnitUserdata ⟨s.lua, s.destructors, s.cells + 1⟩
        s.cells).1.destructors = s.destructors := rfl
    rw [h5]
    simp [List.map_append, List.append_assoc]

/-- Witness for C8 (amended) at a concrete registration. -/
theorem create_nonstatic_registration_witness :
    (create_nonstatic_userdata emptyScope [(1, MKind.method)] [(2, MKind.methodMut)]).1.destructors
      = emptyScope.destructors
        ++ (tableOf
              (create_nonstatic_userdata emptyScope
                [(1, MKind.method)] [(2, MKind.methodMut)]).1.lua
              (create_nonstatic_userdata emptyScope
                [(1, MKind.method)] [(2, MKind.methodMut)]).2).map
            (fun kf => Destructor.callback kf.2) :=
  (create_nonstatic_registration emptyScope [(1, MKind.method)] [(2, MKind.methodMut)]).2.2.2.2

/-- C3: register scoped data object A and then B via separate
`create_nonstatic_userdata` calls from any scope state.  A's wrapped methods
capture `check_data = s.cells`, the address of A's freshly allocated cell,
while B's handle carries Identity Token `s.cells + 1`; hence invoking a
`Method` or `MethodMut` closure bound to A with B's handle as receiver fails
with `UserDataTypeMismatch`, for every user method body, every borrow state of
A's data cell and of the method cell (so the error is produced before any
borrow is attempted, and no user code runs against A's or B's state). -/
theorem cross_instance_method_rejected (s : ScopeState)
    (metaA methsA metaB methsB : List (Nat × MKind)) {T : Type} (dataVal : T)
    (f g : T → List LValue → Except Error (List LValue))
    (dataFlag methodFlag : BorrowFlag) (rest : List LValue) :
    invokeNonStatic
        ((create_nonstatic_userdata
            (create_nonstatic_userdata s metaA methsA).1 metaB methsB).1.lua.uservalueOf)
        s.cells dataFlag methodFlag dataVal (NonStaticMethod.Method f)
        (LValue.userdata (create_nonstatic_userdata
            (create_nonstatic_userdata s metaA methsA).1 metaB methsB).2 :: rest)
      = Except.error Error.UserDataTypeMismatch
      ∧ invokeNonStatic
          ((create_nonstatic_userdata
              (create_nonstatic_userdata s metaA methsA).1 metaB methsB).1.lua.uservalueOf)
          s.cells dataFlag methodFlag dataVal (NonStaticMethod.MethodMut g)
          (LValue.userdata (create_nonstatic_userdata
              (create_nonstatic_userdata s metaA methsA).1 metaB methsB).2 :: rest)
        = Except.error Error.UserDataTypeMismatch := by
  have h1 := create_nonstatic_uservalue (create_nonstatic_userdata s metaA methsA).1
    metaB methsB
  rw [create_nonstatic_cells s metaA methsA] at h1
  have hchk : check_ud_type
      ((create_nonstatic_userdata
          (create_nonstatic_userdata s metaA methsA).1 metaB methsB).1.lua.uservalueOf)
      s.cells
      (some (LValue.userdata (create_nonstatic_userdata
          (create_nonstatic_userdata s metaA methsA).1 metaB methsB).2)) = false := by
    simp [check_ud_type, h1]
  constructor
  · simp [invokeNonStatic, hchk]
  · simp [invokeNonStatic, hchk]

/-- C4: a closure registered through `create_function_mut` holds its user
closure in a `RefCell`; while an invocation is executing, that cell's flag is
`writing`, so a reentrant inner invocation fails `try_borrow_mut` and returns
`RecursiveMutCallback` — for every user closure body and every argument, so
the user closure is never entered by the inner call — and it leaves the flag
exactly as it was, so the outer call's in-flight borrow (and hence its state)
is unaffected by the rejected inner call.  When no invocation is in flight the
wrapper runs the closure normally. -/
theorem create_function_mut_reentrancy {A R : Type} (func : A → Except Error R) (args : A) :
    create_function_mut_call func BorrowFlag.writing args
        = (Except.error Error.RecursiveMutCallback, BorrowFlag.writing)
      ∧ create_function_mut_call func BorrowFlag.free args = (func args, BorrowFlag.free) :=
  ⟨rfl, rfl⟩

/-- C5: a `Method` wrapper invocation whose receiver passes the identity check
takes a read borrow of the Shared Mutable Cell: it returns
`UserDataBorrowError` exactly when a mutable borrow of the cell is
outstanding, and in every other borrow state — including any number of
outstanding read borrows, so reads nest — it reaches the user method with the
receiver stripped. -/
theorem method_read_borrow_discipline (uv : Nat → Option Nat) (cd u : Nat) {T : Type}
    (dataFlag methodFlag : BorrowFlag) (dataVal : T)
    (f : T → List LValue → Except Error (List LValue)) (rest : List LValue)
    (hid : uv u = some cd) :
    (dataFlag = BorrowFlag.writing →
      invokeNonStatic uv cd dataFlag methodFlag dataVal (NonStaticMethod.Method f)
          (LValue.userdata u :: rest) = Except.error Error.UserDataBorrowError)
      ∧ (dataFlag ≠ BorrowFlag.writing →
          invokeNonStatic uv cd dataFlag methodFlag dataVal (NonStaticMethod.Method f)
              (LValue.userdata u :: rest) = f dataVal rest) := by
  constructor
  · intro h
    subst h
    simp [invokeNonStatic, check_ud_type, hid, tryBorrow]
  · intro h
    cases dataFlag with
    | free => simp [invokeNonStatic, check_ud_type, hid, tryBorrow]
    | reading n => simp [invokeNonStatic, check_ud_type, hid, tryBorrow]
    | writing => exact absurd rfl h

/-- Witness for C5 with one outstanding read borrow: the nested read
succeeds. -/
theorem method_read_borrow_discipline_witness :
    (BorrowFlag.reading 1 = BorrowFlag.writing →
      invokeNonStatic (fun _ => some 5) 5 (BorrowFlag.reading 1) BorrowFlag.free (0 : Nat)
          (NonStaticMethod.Method fun _ r => Except.ok r) [LValue.userdata 2, LValue.nil]
        = Except.error Error.UserDataBorrowError)
      ∧ (BorrowFlag.reading 1 ≠ BorrowFlag.writing →
          invokeNonStatic (fun _ => some 5) 5 (BorrowFlag.reading 1) BorrowFlag.free (0 : Nat)
              (NonStaticMethod.Method fun _ r => Except.ok r) [LValue.userdata 2, LValue.nil]
            = (fun (_ : Nat) (r : List LValue) => Except.ok r) 0 [LValue.nil]) :=
  method_read_borrow_discipline (fun _ => some 5) 5 2 (BorrowFlag.reading 1) BorrowFlag.free
    0 (fun _ r => Except.ok r) [LValue.nil] rfl

/-- C6: a `MethodMut` wrapper invocation whose receiver passes the identity
check takes a write borrow of the Shared Mutable Cell: whenever any borrow of
the cell (read or write) is outstanding, the invocation fails — with
`UserDataBorrowMutError` when the surrounding method cell is unborrowed, and
in every case with either that borrow error or `RecursiveMutCallback` — and
the user method never runs. -/
theorem methodmut_write_borrow_discipline (uv : Nat → Option Nat) (cd u : Nat) {T : Type}
    (dataFlag methodFlag : BorrowFlag) (dataVal : T)
    (g : T → List LValue → Except Error (List LValue)) (rest : List LValue)
    (hid : uv u = some cd) (hout : dataFlag ≠ BorrowFlag.free) :
    (methodFlag = BorrowFlag.free →
      invokeNonStatic uv cd dataFlag methodFlag dataVal (NonStaticMethod.MethodMut g)
          (LValue.userdata u :: rest) = Except.error Error.UserDataBorrowMutError)
      ∧ (invokeNonStatic uv cd dataFlag methodFlag dataVal (NonStaticMethod.MethodMut g)
            (LValue.userdata u :: rest) = Except.error Error.UserDataBorrowMutError
          ∨ invokeNonStatic uv cd dataFlag methodFlag dataVal (NonStaticMethod.MethodMut g)
              (LValue.userdata u :: rest) = Except.error Error.RecursiveMutCallback) := by
  constructor
  · intro h
    subst h
    cases dataFlag with
    | free => exact absurd rfl hout
    | reading n => simp [invokeNonStatic, check_ud_type, hid, tryBorrowMut]
    | writing => simp [invokeNonStatic, check_ud_type, hid, tryBorrowMut]
  · cases methodFlag with
    | free =>
        refine Or.inl ?_
        cases dataFlag with
        | free => exact absurd rfl hout
        | reading n => simp [invokeNonStatic, check_ud_type, hid, tryBorrowMut]
        | writing => simp [invokeNonStatic, check_ud_type, hid, tryBorrowMut]
    | reading n => exact Or.inr (by simp [invokeNonStatic, check_ud_type, hid, tryBorrowMut])
    | writing => exact Or.inr (by simp [invokeNonStatic, check_ud_type, hid, tryBorrowMut])

/-- Witness for C6 with an outstanding read borrow on the data cell. -/
theorem methodmut_write_borrow_discipline_witness :
    (BorrowFlag.free = BorrowFlag.free →
      invokeNonStatic (fun _ => some 5) 5 (BorrowFlag.reading 1) BorrowFlag.free (0 : Nat)
          (NonStaticMethod.MethodMut fun _ r => Except.ok r) [LValue.userdata 2]
        = Except.error Error.UserDataBorrowMutError)
      ∧ (invokeNonStatic (fun _ => some 5) 5 (BorrowFlag.reading 1) BorrowFlag.free (0 : Nat)
            (NonStaticMethod.MethodMut fun _ r => Except.ok r) [LValue.userdata 2]
          = Except.error Error.UserDataBorrowMutError
        ∨ invokeNonStatic (fun _ => some 5) 5 (BorrowFlag.reading 1) BorrowFlag.free (0 : Nat)
            (NonStaticMethod.MethodMut fun _ r => Except.ok r) [LValue.userdata 2]
          = Except.error Error.RecursiveMutCallback) :=
  methodmut_write_borrow_discipline (fun _ => some 5) 5 2 (BorrowFlag.reading 1)
    BorrowFlag.free 0 (fun _ r => Except.ok r) [] rfl (by decide)

/-- C7: when the identity check passes and the borrows succeed, both `Method`
and `MethodMut` wrappers invoke the user method with the call arguments minus
the receiver: the first argument is removed and the remaining ones are passed
through unchanged. -/
theorem receiver_stripped (uv : Nat → Option Nat) (cd u : Nat) {T : Type}
    (dataFlag : BorrowFlag) (dataVal : T)
    (f g : T → List LValue → Except Error (List LValue)) (rest : List LValue)
    (hid : uv u = some cd) (hread : dataFlag ≠ BorrowFlag.writing) :
    invokeNonStatic uv cd dataFlag BorrowFlag.free dataVal (NonStaticMethod.Method f)
        (LValue.userdata u :: rest) = f dataVal rest
      ∧ invokeNonStatic uv cd BorrowFlag.free BorrowFlag.free dataVal
          (NonStaticMethod.MethodMut g) (LValue.userdata u :: rest) = g dataVal rest := by
  constructor
  · cases dataFlag with
    | free => simp [invokeNonStatic, check_ud_type, hid, tryBorrow]
    | reading n => simp [invokeNonStatic, check_ud_type, hid, tryBorrow]
    | writing => exact absurd rfl hread
  · simp [invokeNonStatic, check_ud_type, hid, tryBorrow, tryBorrowMut]

/-- Witness for C7 at a concrete invocation with two extra arguments. -/
theorem receiver_stripped_witness :
    invokeNonStatic (fun _ => some 9) 9 BorrowFlag.free BorrowFlag.free (7 : Nat)
        (NonStaticMethod.Method fun _ r => Except.ok r)
        [LValue.userdata 4, LValue.integer 1, LValue.nil]
      = (fun (_ : Nat) (r : List LValue) => Except.ok r) 7 [LValue.integer 1, LValue.nil]
      ∧ invokeNonStatic (fun _ => some 9) 9 BorrowFlag.free BorrowFlag.free (7 : Nat)
          (NonStaticMethod.MethodMut fun _ r => Except.ok r)
          [LValue.userdata 4, LValue.integer 1, LValue.nil]
        = (fun (_ : Nat) (r : List LValue) => Except.ok r) 7 [LValue.integer 1, LValue.nil] :=
  receiver_stripped (fun _ => some 9) 9 4 BorrowFlag.free 7 (fun _ r => Except.ok r)
    (fun _ r => Except.ok r) [LValue.integer 1, LValue.nil] rfl (by decide)

/-- C9: a `Method` or `MethodMut` invocation with an empty argument list, or
whose first argument is not a userdata handle, fails the identity check and
returns `UserDataTypeMismatch` for every user method body and every borrow
state, so the user method is never executed. -/
theorem missing_or_non_userdata_receiver (uv : Nat → Option Nat) (cd : Nat) {T : Type}
    (dataFlag methodFlag : BorrowFlag) (dataVal : T)
    (f g : T → List LValue → Except Error (List LValue)) :
    invokeNonStatic uv cd dataFlag methodFlag dataVal (NonStaticMethod.Method f) []
        = Except.error Error.UserDataTypeMismatch
      ∧ invokeNonStatic uv cd dataFlag methodFlag dataVal (NonStaticMethod.MethodMut g) []
        = Except.error Error.UserDataTypeMismatch
      ∧ (∀ (v : LValue) (rest : List LValue), (∀ i : Nat, v ≠ LValue.userdata i) →
          invokeNonStatic uv cd dataFlag methodFlag dataVal (NonStaticMethod.Method f)
              (v :: rest) = Except.error Error.UserDataTypeMismatch
            ∧ invokeNonStatic uv cd dataFlag methodFlag dataVal (NonStaticMethod.MethodMut g)
              (v :: rest) = Except.error Error.UserDataTypeMismatch) := by
  refine ⟨by simp [invokeNonStatic, check_ud_type],
    by simp [invokeNonStatic, check_ud_type], ?_⟩
  intro v rest hv
  have hchk : check_ud_type uv cd (some v) = false := by
    cases v with
    | userdata i => exact absurd rfl (hv i)
    | nil => rfl
    | boolean b => rfl
    | integer n => rfl
    | str sv => rfl
    | func i => rfl
  constructor
  · simp [invokeNonStatic, hchk]
  · simp [invokeNonStatic, hchk]

/-- Witness for C9 with an integer first argument. -/
theorem missing_or_non_userdata_receiver_witness :
    invokeNonStatic (fun _ => some 5) 5 BorrowFlag.free BorrowFlag.free (0 : Nat)
        (NonStaticMethod.Method fun _ r => Except.ok r) []
      = Except.error Error.UserDataTypeMismatch
      ∧ invokeNonStatic (fun _ => some 5) 5 BorrowFlag.free BorrowFlag.free (0 : Nat)
          (NonStaticMethod.MethodMut fun _ r => Except.ok r) []
        = Except.error Error.UserDataTypeMismatch
      ∧ (∀ (v : LValue) (rest : List LValue), (∀ i : Nat, v ≠ LValue.userdata i) →
          invokeNonStatic (fun _ => some 5) 5 BorrowFlag.free BorrowFlag.free (0 : Nat)
              (NonStaticMethod.Method fun _ r => Except.ok r) (v :: rest)
            = Except.error Error.UserDataTypeMismatch
            ∧ invokeNonStatic (fun _ => some 5) 5 BorrowFlag.free BorrowFlag.free (0 : Nat)
              (NonStaticMethod.MethodMut fun _ r => Except.ok r) (v :: rest)
            = Except.error Error.UserDataTypeMismatch) :=
  missing_or_non_userdata_receiver (fun _ => some 5) 5 BorrowFlag.free BorrowFlag.free 0
    (fun _ r => Except.ok r) (fun _ r => Except.ok r)

/-- C10: a `Function` wrapper performs no identity check and passes the whole
argument list through unchanged, whatever the borrow states and the uservalue
environment; a `FunctionMut` wrapper does the same when no invocation of
itself is in flight, and returns `RecursiveMutCallback` when invoked
reentrantly (its method cell flag is `writing`). -/
theorem free_function_variants (uv : Nat → Option Nat) (cd : Nat) {T : Type}
    (dataFlag : BorrowFlag) (dataVal : T)
    (f g : List LValue → Except Error (List LValue)) (args : List LValue) :
    (∀ methodFlag : BorrowFlag,
        invokeNonStatic uv cd dataFlag methodFlag dataVal (NonStaticMethod.Function f) args
          = f args)
      ∧ invokeNonStatic uv cd dataFlag BorrowFlag.writing dataVal
          (NonStaticMethod.FunctionMut g) args = Except.error Error.RecursiveMutCallback
      ∧ invokeNonStatic uv cd dataFlag BorrowFlag.free dataVal
          (NonStaticMethod.FunctionMut g) args = g args := by
  refine ⟨fun methodFlag => rfl, ?_, ?_⟩
  · simp [invokeNonStatic, tryBorrowMut]
  · simp [invokeNonStatic, tryBorrowMut]
